import Mathlib

/-!
# video_recorder: recording state machine and frame admission

A shallow embedding of `image_view/src/nodes/video_recorder.cpp`.

* `std::string` values are lists of characters.
* `ros::Time` values are natural numbers of nanoseconds since time zero, a
  `ros::Duration` is an integer number of nanoseconds, and the difference of two times is
  the integer difference of their nanosecond counts.
* The file-scope variables (`recording`, `outputVideo`, `g_count`, `g_last_wrote_time`,
  `filename`, `filename_orig`) are the fields of `Recorder`; every handler is a function
  from the variables before the call to the variables after it.
* The collaborators are inputs: an image message carries the answer `cv::VideoWriter::open`
  gives when it is called for that message and the outcome of `cvtColorForDisplay`; a start
  command carries the reading of `ros::Time::now().toNSec()`.
* `exit(-1)` sets `Recorder.exited`; `ros::spin` dispatches nothing once it is set.
* `ros::Duration(1.0 / fps)` is the parameter `period`, in nanoseconds (`10^8` for
  `fps = 10`).
* `g_count` is a 32-bit `int`: `g_count++` stores `int_wrap (g_count + 1)`, which wraps from
  `2147483647` around to `-2147483648`.
-/

namespace VideoRecorder

/-! ## Data model -/

/-- Outcome of `cv_bridge::cvtColorForDisplay(...)->image` on one message (lines 87-107). -/
inductive Conversion where
  /-- the conversion throws `cv_bridge::Exception`. -/
  | exception
  /-- the converted image is empty (`image.empty()`). -/
  | empty
  /-- the converted image holds data. -/
  | image
  deriving DecidableEq, Repr

/-- One `sensor_msgs::Image` delivery, with the collaborators' answers for it. -/
structure ImageMsg where
  /-- the stamp `image_msg->header.stamp`, in nanoseconds. -/
  stamp : Nat
  /-- whether `outputVideo.open(...)` leaves the writer opened, should this delivery call it. -/
  open_ok : Bool
  /-- what the colour conversion of this message gives. -/
  conversion : Conversion
  deriving DecidableEq, Repr

/-- The file-scope variables of the node, the process flags, and the sink's history. -/
structure Recorder where
  /-- the flag `std::atomic<bool> recording`. -/
  recording : Bool
  /-- the value of `outputVideo.isOpened()`. -/
  opened : Bool
  /-- the counter `int g_count`. -/
  g_count : Int
  /-- the time `ros::Time g_last_wrote_time`, in nanoseconds. -/
  g_last_wrote_time : Nat
  /-- the name `std::string filename`. -/
  filename : List Char
  /-- the name `std::string filename_orig`. -/
  filename_orig : List Char
  /-- stamps of the frames appended with `outputVideo << image`, oldest first. -/
  written : List Nat
  /-- file names with which `outputVideo.open` succeeded, oldest first. -/
  opens : List (List Char)
  /-- the process has called `exit(-1)`. -/
  exited : Bool
  /-- the call `it.subscribe(topic, 1, callback)` has been executed. -/
  subscribed : Bool
  /-- the three services have been advertised. -/
  services : Bool
  deriving DecidableEq, Repr

/-- The parameters `main` reads from the parameter server. -/
structure Params where
  /-- parameter `filename`. -/
  filename : List Char
  /-- parameter `stamped_filename`. -/
  stamped_filename : Bool
  /-- the value of `ros::Duration(1.0 / fps)` for the parameter `fps`, in nanoseconds. -/
  period : Int
  /-- parameter `codec`. -/
  codec : List Char
  /-- parameter `save_all_video`. -/
  save_all_video : Bool
  deriving DecidableEq, Repr

/-- What `ros::spin` can deliver: an image, or a call of one of the three services. -/
inductive Event where
  /-- an image on the subscribed topic. -/
  | image (m : ImageMsg)
  /-- service `start`; `now` is the clock reading inside `stamp_filename`. -/
  | start (now : Nat)
  /-- service `start_named` with request string `str`. -/
  | start_named (str : List Char) (now : Nat)
  /-- service `stop`. -/
  | stop
  deriving DecidableEq, Repr

/-! ## stamp_filename (lines 111-121) -/

/-- The call `std::string::find_last_of(chars)`: the index of the last character of `s` that occurs
in `chars`; `none` stands for `npos`. -/
def find_last_of : List Char → List Char → Option Nat
  | [], _ => none
  | c :: cs, chars =>
    match find_last_of cs chars with
    | some i => some (i + 1)
    | none => if chars.contains c then some 0 else none

/-- The call `std::string::substr(pos, n)`. -/
def substr (s : List Char) (pos n : Nat) : List Char := (s.drop pos).take n

/-- The call `std::string::substr(pos)`. -/
def substr_from (s : List Char) (pos : Nat) : List Char := s.drop pos

/-- The value of `found + 1` in `std::size_t`: `npos + 1` wraps around to `0`. -/
def found_plus_one : Option Nat → Nat
  | none => 0
  | some i => i + 1

/-- Decimal digits of an unsigned integer, as `operator<<` prints them. -/
def decimal (n : Nat) : List Char :=
  if n = 0 then ['0'] else (Nat.digits 10 n).reverse.map Nat.digitChar

/-- The two path separators given to `find_last_of`. -/
def separators : List Char := ['/', '\\']

/-- The extension appended to every stamped name. -/
def extension : List Char := ['.', 'a', 'v', 'i']

/-- Lines 111-121; `now` is `ros::Time::now().toNSec()`. -/
def stamp_filename (filename : List Char) (now : Nat) : List Char :=
  let found := find_last_of filename separators
  let path := substr filename 0 (found_plus_one found)
  let basename := substr_from filename (found_plus_one found)
  let ss := basename ++ ['_'] ++ decimal now ++ extension
  path ++ ss

/-- The `std::string` built from `s.c_str()`: the characters before the first NUL. -/
def c_str (s : List Char) : List Char := s.takeWhile (fun c => c != Char.ofNat 0)

/-! ## The frame callback (lines 50-109) -/

/-- The test of line 81: `(stamp - g_last_wrote_time) < ros::Duration(1.0 / fps)`. -/
def rate_gate_skips (period : Int) (s : Recorder) (m : ImageMsg) : Bool :=
  decide ((m.stamp : Int) - (s.g_last_wrote_time : Int) < period)

/-- The value an `int` holds once `x` is stored in it: 32-bit two's complement wrap-around. -/
def int_wrap (x : Int) : Int := (x + 2147483648) % 4294967296 - 2147483648

/-- The values an `int` can hold. -/
def int_range (x : Int) : Prop := -2147483648 ≤ x ∧ x ≤ 2147483647

instance int_range_decidable (x : Int) : Decidable (int_range x) :=
  inferInstanceAs (Decidable (-2147483648 ≤ x ∧ x ≤ 2147483647))

/-- Lines 87-107: conversion, and the write when the image holds data. -/
def convert_and_write (s : Recorder) (m : ImageMsg) : Recorder :=
  match m.conversion with
  | Conversion.exception => s
  | Conversion.empty => s
  | Conversion.image =>
    { s with written := s.written ++ [m.stamp],
             g_count := int_wrap (s.g_count + 1),
             g_last_wrote_time := m.stamp }

/-- Lines 81-107: the rate gate, then conversion and write. -/
def gate_and_write (period : Int) (s : Recorder) (m : ImageMsg) : Recorder :=
  if rate_gate_skips period s m then s else convert_and_write s m

/-- Lines 50-109. -/
def callback (period : Int) (s : Recorder) (m : ImageMsg) : Recorder :=
  if s.recording then
    if !s.opened then
      if !m.open_ok then
        { s with exited := true }
      else
        gate_and_write period { s with opened := true, opens := s.opens ++ [s.filename] } m
    else
      gate_and_write period s m
  else s

/-! ## The service handlers (lines 123-148) -/

/-- Lines 123-130. -/
def start_cb (s : Recorder) (now : Nat) : Recorder :=
  { s with filename := stamp_filename s.filename_orig now, recording := true }

/-- Lines 132-139. -/
def start_string_cb (s : Recorder) (str : List Char) (now : Nat) : Recorder :=
  { s with filename := stamp_filename (c_str str) now, recording := true }

/-- Lines 141-148. -/
def stop_cb (s : Recorder) : Recorder :=
  { s with recording := false, opened := false }

/-! ## main (lines 150-202) -/

/-- The variables as their initialisers leave them (lines 33-48). -/
def initial : Recorder :=
  { recording := true, opened := false, g_count := 0, g_last_wrote_time := 0,
    filename := [], filename_orig := [], written := [], opens := [],
    exited := false, subscribed := false, services := false }

/-- Lines 155-174: the parameters are read and the file name is chosen. -/
def main_filename (p : Params) (now : Nat) : Recorder :=
  { initial with
    filename_orig := p.filename,
    filename := if p.stamped_filename then stamp_filename p.filename now else p.filename }

/-- Lines 180-186: the services are advertised and recording is switched off. -/
def main_services (p : Params) (s : Recorder) : Recorder :=
  if p.save_all_video then { s with services := true, recording := false } else s

/-- Lines 150-195: `main` up to the call of `ros::spin`. -/
def main_init (p : Params) (now : Nat) : Recorder :=
  let s := main_services p (main_filename p now)
  if p.codec.length ≠ 4 then { s with exited := true }
  else { s with subscribed := true }

/-- One delivery by `ros::spin` to the handler registered for it, if any. -/
def dispatch (period : Int) (s : Recorder) : Event → Recorder
  | Event.image m => if s.subscribed then callback period s m else s
  | Event.start now => if s.services then start_cb s now else s
  | Event.start_named str now => if s.services then start_string_cb s str now else s
  | Event.stop => if s.services then stop_cb s else s

/-- One delivery; a process that has exited handles nothing. -/
def step (period : Int) (s : Recorder) (e : Event) : Recorder :=
  if s.exited then s else dispatch period s e

/-- The loop `ros::spin()` over the deliveries `es`, in order. -/
def spin (period : Int) (s : Recorder) (es : List Event) : Recorder :=
  es.foldl (step period) s

/-- The process: `main` run on parameters `p` with the deliveries `es`. -/
def main (p : Params) (now : Nat) (es : List Event) : Recorder :=
  spin p.period (main_init p now) es

/-! ## Auxiliary definitions for the statements -/

/-- The digit a decimal character stands for. -/
def undigit (c : Char) : Nat := c.toNat - 48

/-- The number a list of decimal characters stands for. -/
def undecimal (cs : List Char) : Nat := Nat.ofDigits 10 (cs.map undigit).reverse

/-- The stamp of the last frame written to the sink, time zero when none has been. -/
def last_written (s : Recorder) : Nat := s.written.getLast?.getD 0

/-- The frame `m`, delivered in state `s`, is due: the process is alive and subscribed, the
recorder is recording, the sink is open or opens for the frame, the frame is stamped at
least one rate period after the last frame written (after time zero when there is none),
and its conversion gives an image. -/
def due (period : Int) (s : Recorder) (m : ImageMsg) : Prop :=
  s.exited = false ∧ s.subscribed = true ∧ s.recording = true ∧
  (s.opened = true ∨ m.open_ok = true) ∧
  period ≤ (m.stamp : Int) - (last_written s : Int) ∧
  m.conversion = Conversion.image

instance due_decidable (period : Int) (s : Recorder) (m : ImageMsg) :
    Decidable (due period s m) :=
  inferInstanceAs (Decidable (s.exited = false ∧ s.subscribed = true ∧ s.recording = true ∧
    (s.opened = true ∨ m.open_ok = true) ∧
    period ≤ (m.stamp : Int) - (last_written s : Int) ∧
    m.conversion = Conversion.image))

/-- Whether the event is a call of `start` or of `start_named`. -/
def Event.is_start : Event → Bool
  | Event.start _ => true
  | Event.start_named _ _ => true
  | _ => false

/-! ## Scenario inputs -/

/-- The rate period `ros::Duration(1.0 / fps)` for `fps = 10`: a tenth of a second. -/
def period_fps10 : Int := 100000000

/-- Parameters of a launch with the defaults, `fps = 10`: recording from the start. -/
def armed_params : Params :=
  { filename := ['o', 'u', 't', 'p', 'u', 't'], stamped_filename := false,
    period := period_fps10, codec := ['M', 'J', 'P', 'G'], save_all_video := false }

/-- The same launch with `save_all_video` set: idle until a start command. -/
def commanded_params : Params := { armed_params with save_all_video := true }

/-- The same launch with a codec of three characters. -/
def bad_codec_params : Params := { armed_params with codec := ['M', 'J', 'P'] }

/-- A frame stamped `t` nanoseconds that converts to an image; the sink opens for it. -/
def good_frame (t : Nat) : ImageMsg := { stamp := t, open_ok := true, conversion := Conversion.image }

/-- A frame stamped `t` nanoseconds for which the sink cannot be opened. -/
def unopened_frame (t : Nat) : ImageMsg :=
  { stamp := t, open_ok := false, conversion := Conversion.image }

/-- A recording state, one frame written at 2.0 s, whose counter holds the largest `int`. -/
def full_counter : Recorder :=
  { recording := true, opened := true, g_count := 2147483647,
    g_last_wrote_time := 2000000000,
    filename := ['o', 'u', 't', 'p', 'u', 't'], filename_orig := ['o', 'u', 't', 'p', 'u', 't'],
    written := [2000000000], opens := [['o', 'u', 't', 'p', 'u', 't']],
    exited := false, subscribed := true, services := false }

/-- A frame stamped `t` nanoseconds whose conversion throws. -/
def bad_frame (t : Nat) : ImageMsg :=
  { stamp := t, open_ok := true, conversion := Conversion.exception }

/-! ## Frames spaced at least one period apart -/

/-- Frame `b` is stamped later than frame `a`, by at least the rate period. -/
def spaced (period : Int) (a b : ImageMsg) : Prop :=
  a.stamp < b.stamp ∧ period ≤ (b.stamp : Int) - (a.stamp : Int)

instance spaced_decidable (period : Int) : DecidableRel (spaced period) :=
  fun a b =>
    inferInstanceAs (Decidable (a.stamp < b.stamp ∧ period ≤ (b.stamp : Int) - (a.stamp : Int)))

/-- The frames of `ms` whose conversion gives an image. -/
def with_image (ms : List ImageMsg) : List ImageMsg :=
  ms.filter (fun x => decide (x.conversion = Conversion.image))

/-- The recorder is recording, and the first frame of `ms`, if any, will find or get an
open sink and is stamped at least one period after `g_last_wrote_time`. -/
def ready (period : Int) (s : Recorder) (ms : List ImageMsg) : Prop :=
  s.recording = true ∧ s.exited = false ∧ s.subscribed = true ∧
  ∀ m ∈ ms.head?, (s.opened = true ∨ m.open_ok = true) ∧
    s.g_last_wrote_time ≤ m.stamp ∧ period ≤ (m.stamp : Int) - (s.g_last_wrote_time : Int)

/-! ## The sink and the history of a run -/

/-- What has happened in a run since the last start command and since the last stop. -/
structure History where
  /-- a frame has passed the rate gate since the last start command handled (or launch). -/
  admitted_since_start : Bool
  /-- a stop has been handled since the last start command handled (or launch). -/
  stop_since_start : Bool
  /-- the callback has run with `recording` set since the last stop handled (or launch). -/
  delivered_since_stop : Bool
  deriving DecidableEq, Repr

/-- Nothing has happened at launch. -/
def History.launch : History :=
  { admitted_since_start := false, stop_since_start := false, delivered_since_stop := false }

/-- Whether `ros::spin` hands the delivery to a handler: the process is alive and the
handler is registered. -/
def handled (s : Recorder) : Event → Bool
  | Event.image _ => !s.exited && s.subscribed
  | _ => !s.exited && s.services

/-- The history after delivery `e` arrives in state `s`. A frame passes the rate gate when
the callback reaches line 81 (recording, sink opened) and the test there is false. -/
def observe (period : Int) (s : Recorder) (h : History) (e : Event) : History :=
  if handled s e then
    match e with
    | Event.image m =>
      if s.recording then
        { h with
          delivered_since_stop := true,
          admitted_since_start := h.admitted_since_start ||
            ((s.opened || m.open_ok) && !rate_gate_skips period s m) }
      else h
    | Event.start _ => { h with admitted_since_start := false, stop_since_start := false }
    | Event.start_named _ _ =>
      { h with admitted_since_start := false, stop_since_start := false }
    | Event.stop => { h with stop_since_start := true, delivered_since_stop := false }
  else h

/-- The history after the deliveries `es`, which start in state `s` with history `h`. -/
def history (period : Int) : Recorder → History → List Event → History
  | _, h, [] => h
  | s, h, e :: es => history period (step period s e) (observe period s h e) es

/-- The history of the process run on the deliveries `es`. -/
def main_history (p : Params) (now : Nat) (es : List Event) : History :=
  history p.period (main_init p now) History.launch es

/-- The sink invariant as the specification words it: the sink is open exactly when a
frame has passed the rate gate since the last start command and no stop has occurred
since. -/
def sink_open_iff_admitted (s : Recorder) (h : History) : Prop :=
  s.opened = true ↔ (h.admitted_since_start = true ∧ h.stop_since_start = false)

/-- The sink invariant the code keeps. -/
def sink_open_iff_delivered (s : Recorder) (h : History) : Prop :=
  (s.exited = false → (s.opened = true ↔ h.delivered_since_stop = true)) ∧
  (s.exited = true → s.opened = false) ∧
  (s.opened = true → s.recording = true)

/-! ## Facts about stamp_filename -/

theorem undigit_digitChar (d : Nat) (h : d < 10) : undigit (Nat.digitChar d) = d := by
  interval_cases d <;> rfl

theorem map_undigit_digitChar (l : List Nat) (h : ∀ d ∈ l, d < 10) :
    (l.map Nat.digitChar).map undigit = l := by
  induction l with
  | nil => rfl
  | cons d l ih =>
    simp only [List.map_cons, List.cons.injEq]
    exact ⟨undigit_digitChar d (h d (List.mem_cons_self d l)),
      ih (fun x hx => h x (List.mem_cons_of_mem d hx))⟩

theorem undecimal_decimal (n : Nat) : undecimal (decimal n) = n := by
  unfold undecimal decimal
  split
  · next h => subst h; rfl
  · rw [map_undigit_digitChar]
    · rw [List.reverse_reverse, Nat.ofDigits_digits]
    · intro d hd
      exact Nat.digits_lt_base (by norm_num) (List.mem_reverse.mp hd)

theorem decimal_injective {n m : Nat} (h : decimal n = decimal m) : n = m := by
  have := congrArg undecimal h
  rwa [undecimal_decimal, undecimal_decimal] at this

theorem find_last_of_none {s chars : List Char} (h : find_last_of s chars = none) :
    ∀ c ∈ s, chars.contains c = false := by
  induction s with
  | nil => intro c hc; cases hc
  | cons a s ih =>
    unfold find_last_of at h
    cases hr : find_last_of s chars with
    | some i => simp [hr] at h
    | none =>
      simp only [hr] at h
      intro c hc
      rcases List.mem_cons.mp hc with rfl | hc
      · by_contra hcon
        rw [Bool.not_eq_false] at hcon
        rw [if_pos hcon] at h
        cases h
      · exact ih hr c hc

theorem find_last_of_some {s chars : List Char} {i : Nat} (h : find_last_of s chars = some i) :
    ∃ sep, chars.contains sep = true ∧ s.take (i + 1) = s.take i ++ [sep] ∧
      ∀ c ∈ s.drop (i + 1), chars.contains c = false := by
  induction s generalizing i with
  | nil => simp [find_last_of] at h
  | cons a s ih =>
    unfold find_last_of at h
    cases hr : find_last_of s chars with
    | some j =>
      simp only [hr, Option.some.injEq] at h
      subst h
      obtain ⟨sep, hsep, htake, hdrop⟩ := ih hr
      exact ⟨sep, hsep, by simp [List.take_succ_cons, htake], by simpa using hdrop⟩
    | none =>
      simp only [hr] at h
      by_cases ha : chars.contains a = true
      · rw [if_pos ha, Option.some.injEq] at h
        subst h
        exact ⟨a, ha, by simp, by simpa using find_last_of_none hr⟩
      · rw [if_neg ha] at h
        cases h

theorem stamp_filename_eq (f : List Char) (n : Nat) :
    stamp_filename f n = f ++ ['_'] ++ decimal n ++ extension := by
  simp only [stamp_filename, substr, substr_from, List.drop_zero]
  rw [← List.append_assoc, ← List.append_assoc, ← List.append_assoc, List.take_append_drop]

theorem stamp_filename_inj (f : List Char) (n m : Nat) :
    stamp_filename f n = stamp_filename f m ↔ n = m := by
  constructor
  · intro h
    rw [stamp_filename_eq, stamp_filename_eq] at h
    have h1 := List.append_cancel_right h
    have h2 := List.append_cancel_left h1
    exact decimal_injective h2
  · rintro rfl; rfl

/-- The split `stamp_filename` makes: everything up to and including the last separator,
and the rest. -/
theorem stamp_filename_split (f : List Char) :
    ∃ dir stem, f = dir ++ stem ∧
      substr f 0 (found_plus_one (find_last_of f separators)) = dir ∧
      substr_from f (found_plus_one (find_last_of f separators)) = stem ∧
      (∀ c ∈ stem, c ≠ '/' ∧ c ≠ '\\') ∧
      ((∀ c ∈ f, c ≠ '/' ∧ c ≠ '\\') → dir = []) ∧
      (dir = [] ∨ ∃ d sep, dir = d ++ [sep] ∧ (sep = '/' ∨ sep = '\\')) := by
  have hsep : ∀ c : Char, separators.contains c = false → c ≠ '/' ∧ c ≠ '\\' := by
    intro c hc
    simp only [separators, List.contains_eq_any_beq, List.any_cons, List.any_nil, Bool.or_false,
      Bool.or_eq_false_iff, beq_eq_false_iff_ne, ne_eq] at hc
    exact ⟨fun h => hc.1 h, fun h => hc.2 h⟩
  have hsep2 : ∀ c : Char, separators.contains c = true → c = '/' ∨ c = '\\' := by
    intro c hc
    simp only [separators, List.contains_eq_any_beq, List.any_cons, List.any_nil, Bool.or_false,
      Bool.or_eq_true, beq_iff_eq] at hc
    rcases hc with h | h
    · exact Or.inl h
    · exact Or.inr h
  refine ⟨substr f 0 (found_plus_one (find_last_of f separators)),
    substr_from f (found_plus_one (find_last_of f separators)), ?_, rfl, rfl, ?_, ?_, ?_⟩
  · simp only [substr, substr_from, List.drop_zero, List.take_append_drop]
  · cases hr : find_last_of f separators with
    | none =>
      intro c hc
      simp only [substr_from, found_plus_one, List.drop_zero] at hc
      exact hsep c (find_last_of_none hr c hc)
    | some i =>
      obtain ⟨sep, _, _, hdrop⟩ := find_last_of_some hr
      intro c hc
      exact hsep c (hdrop c hc)
  · intro hno
    cases hr : find_last_of f separators with
    | none => simp [substr, found_plus_one]
    | some i =>
      obtain ⟨sep, hs, htake, _⟩ := find_last_of_some hr
      have hmem : sep ∈ f := by
        have : sep ∈ f.take (i + 1) := by rw [htake]; simp
        exact List.mem_of_mem_take this
      rcases hsep2 sep hs with h | h
      · exact absurd h (hno sep hmem).1
      · exact absurd h (hno sep hmem).2
  · cases hr : find_last_of f separators with
    | none => left; simp [substr, found_plus_one]
    | some i =>
      obtain ⟨sep, hs, htake, _⟩ := find_last_of_some hr
      right
      exact ⟨f.take i, sep, by simpa [substr, found_plus_one] using htake, hsep2 sep hs⟩

/-! ## Facts about the handlers and the dispatcher -/

theorem spin_nil (period : Int) (s : Recorder) : spin period s [] = s := rfl

theorem spin_cons (period : Int) (s : Recorder) (e : Event) (es : List Event) :
    spin period s (e :: es) = spin period (step period s e) es := rfl

theorem spin_append (period : Int) (s : Recorder) (es fs : List Event) :
    spin period s (es ++ fs) = spin period (spin period s es) fs := by
  simp [spin, List.foldl_append]

theorem step_exited (period : Int) (s : Recorder) (e : Event) (h : s.exited = true) :
    step period s e = s := by
  simp [step, h]

theorem spin_exited (period : Int) (s : Recorder) (es : List Event) (h : s.exited = true) :
    spin period s es = s := by
  induction es with
  | nil => rfl
  | cons e es ih => rw [spin_cons, step_exited period s e h, ih]

theorem gate_and_write_flags (period : Int) (s : Recorder) (m : ImageMsg) :
    (gate_and_write period s m).recording = s.recording ∧
    (gate_and_write period s m).opened = s.opened ∧
    (gate_and_write period s m).exited = s.exited ∧
    (gate_and_write period s m).subscribed = s.subscribed ∧
    (gate_and_write period s m).services = s.services ∧
    (gate_and_write period s m).filename = s.filename ∧
    (gate_and_write period s m).filename_orig = s.filename_orig ∧
    (gate_and_write period s m).opens = s.opens := by
  unfold gate_and_write convert_and_write
  split
  · simp
  · split <;> simp

theorem step_services (period : Int) (s : Recorder) (e : Event) :
    (step period s e).services = s.services := by
  unfold step
  split
  · rfl
  · cases e with
    | image m =>
      simp only [dispatch, callback]
      split
      · split
        · split
          · split
            · rfl
            · exact (gate_and_write_flags period _ m).2.2.2.2.1
          · exact (gate_and_write_flags period _ m).2.2.2.2.1
        · rfl
      · rfl
    | start now => simp only [dispatch, start_cb]; split <;> rfl
    | start_named str now => simp only [dispatch, start_string_cb]; split <;> rfl
    | stop => simp only [dispatch, stop_cb]; split <;> rfl

theorem spin_services (period : Int) (s : Recorder) (es : List Event) :
    (spin period s es).services = s.services := by
  induction es generalizing s with
  | nil => rfl
  | cons e es ih => rw [spin_cons, ih, step_services]

/-- A process that has exited has no open sink, provided this held at the start. -/
theorem step_exited_closed (period : Int) (s : Recorder) (e : Event)
    (h : s.exited = true → s.opened = false) :
    (step period s e).exited = true → (step period s e).opened = false := by
  unfold step
  split
  · exact h
  · next hex =>
    cases e with
    | image m =>
      simp only [dispatch, callback]
      split
      · split
        · split
          · split
            · next ho _ => intro _; simpa using ho
            · rw [(gate_and_write_flags period _ m).2.2.1]
              intro hx; exact absurd hx hex
          · rw [(gate_and_write_flags period _ m).2.2.1]
            intro hx; exact absurd hx hex
        · intro hx; exact absurd hx hex
      · intro hx; exact absurd hx hex
    | start now =>
      simp only [dispatch, start_cb]; split <;> intro hx <;> exact absurd hx hex
    | start_named str now =>
      simp only [dispatch, start_string_cb]; split <;> intro hx <;> exact absurd hx hex
    | stop =>
      simp only [dispatch, stop_cb]; split <;> intro hx <;> exact absurd hx hex

theorem spin_exited_closed (period : Int) (s : Recorder) (es : List Event)
    (h : s.exited = true → s.opened = false) :
    (spin period s es).exited = true → (spin period s es).opened = false := by
  induction es generalizing s with
  | nil => exact h
  | cons e es ih => rw [spin_cons]; exact ih _ (step_exited_closed period s e h)

theorem step_idle (period : Int) (s : Recorder) (e : Event)
    (hrec : s.recording = false) (hcl : s.opened = false) (he : e.is_start = false) :
    step period s e = s := by
  unfold step
  split
  · rfl
  · cases e with
    | image m => simp [dispatch, callback, hrec]
    | start now => simp [Event.is_start] at he
    | start_named str now => simp [Event.is_start] at he
    | stop =>
      cases s
      simp only [dispatch, stop_cb] at *
      split <;> simp [hrec, hcl]

theorem spin_idle (period : Int) (s : Recorder) (es : List Event)
    (hrec : s.recording = false) (hcl : s.opened = false)
    (hes : ∀ e ∈ es, e.is_start = false) :
    spin period s es = s := by
  induction es with
  | nil => rfl
  | cons e es ih =>
    rw [spin_cons, step_idle period s e hrec hcl (hes e (List.mem_cons_self e es))]
    exact ih (fun x hx => hes x (List.mem_cons_of_mem e hx))

theorem main_init_closed (p : Params) (now : Nat) : (main_init p now).opened = false := by
  by_cases hc : p.codec.length = 4 <;> cases hs : p.save_all_video <;>
    simp [main_init, main_services, main_filename, initial, hc, hs]

theorem main_init_services (p : Params) (now : Nat) (h : p.save_all_video = true) :
    (main_init p now).services = true ∧ (main_init p now).recording = false := by
  by_cases hc : p.codec.length = 4 <;>
    simp [main_init, main_services, main_filename, initial, hc, h]

theorem gate_and_write_last (period : Int) (s : Recorder) (m : ImageMsg) (h : 0 ≤ period) :
    s.g_last_wrote_time ≤ (gate_and_write period s m).g_last_wrote_time := by
  unfold gate_and_write
  split
  · exact le_refl _
  · next hskip =>
    unfold convert_and_write
    split
    · exact le_refl _
    · exact le_refl _
    · simp only [rate_gate_skips, decide_eq_true_eq] at hskip
      show s.g_last_wrote_time ≤ m.stamp
      omega

theorem step_last (period : Int) (s : Recorder) (e : Event) (h : 0 ≤ period) :
    s.g_last_wrote_time ≤ (step period s e).g_last_wrote_time := by
  unfold step
  split
  · exact le_refl _
  · cases e with
    | image m =>
      simp only [dispatch, callback]
      split
      · split
        · split
          · split
            · exact le_refl _
            · exact gate_and_write_last period
                { s with opened := true, opens := s.opens ++ [s.filename] } m h
          · exact gate_and_write_last period s m h
        · exact le_refl _
      · exact le_refl _
    | start now => simp only [dispatch, start_cb]; split <;> exact le_refl _
    | start_named str now => simp only [dispatch, start_string_cb]; split <;> exact le_refl _
    | stop => simp only [dispatch, stop_cb]; split <;> exact le_refl _

theorem spin_last (period : Int) (s : Recorder) (es : List Event) (h : 0 ≤ period) :
    s.g_last_wrote_time ≤ (spin period s es).g_last_wrote_time := by
  induction es generalizing s with
  | nil => exact le_refl _
  | cons e es ih => rw [spin_cons]; exact le_trans (step_last period s e h) (ih _)

/-- What the callback leaves when the rate gate skips the frame: at most the sink was
opened, or the process exited because it could not be. -/
theorem callback_of_skip (period : Int) (s : Recorder) (m : ImageMsg)
    (h : rate_gate_skips period s m = true) :
    (callback period s m).written = s.written ∧
    (callback period s m).g_count = s.g_count ∧
    (callback period s m).g_last_wrote_time = s.g_last_wrote_time := by
  have h2 : rate_gate_skips period
      { s with opened := true, opens := s.opens ++ [s.filename] } m = true := h
  unfold callback
  split
  · split
    · split
      · exact ⟨rfl, rfl, rfl⟩
      · simp [gate_and_write, h2]
    · simp [gate_and_write, h]
  · exact ⟨rfl, rfl, rfl⟩

/-- What the callback does with a frame that reaches the rate gate and passes it. -/
theorem callback_of_pass (period : Int) (s : Recorder) (m : ImageMsg)
    (hrec : s.recording = true) (hopen : s.opened = true ∨ m.open_ok = true)
    (h : rate_gate_skips period s m = false) :
    callback period s m = convert_and_write
      { s with opened := true,
               opens := if s.opened then s.opens else s.opens ++ [s.filename] } m := by
  have h2 : rate_gate_skips period
      { s with opened := true, opens := s.opens ++ [s.filename] } m = false := h
  cases s with
  | mk recording opened g_count g_last filename filename_orig written opens exited sub srv =>
    simp only at hrec hopen
    subst hrec
    cases opened with
    | true => simp [callback, gate_and_write, h]
    | false =>
      simp only [Bool.false_eq_true, false_or] at hopen
      simp [callback, gate_and_write, h2, hopen]

/-! ## The claims -/

/-- The process is idle after a launch with `save_all_video` and after every stop, and
stays as it is until the next start command. -/
theorem idle_process (p : Params) (now : Nat) (pre mid : List Event)
    (hsave : p.save_all_video = true)
    (hpre : pre = [] ∨ ∃ pre0, pre = pre0 ++ [Event.stop])
    (hmid : ∀ e ∈ mid, e.is_start = false) :
    main p now (pre ++ mid) = main p now pre ∧
    (main p now pre).opened = false ∧
    ((main p now pre).exited = false → (main p now pre).recording = false) := by
  have key : (main p now pre).opened = false ∧
      ((main p now pre).exited = false → (main p now pre).recording = false) := by
    rcases hpre with rfl | ⟨pre0, rfl⟩
    · exact ⟨main_init_closed p now, fun _ => (main_init_services p now hsave).2⟩
    · unfold main
      rw [spin_append, spin_cons, spin_nil]
      by_cases hex : (spin p.period (main_init p now) pre0).exited = true
      · rw [step_exited _ _ _ hex]
        refine ⟨spin_exited_closed _ _ _ (fun _ => main_init_closed p now) hex, ?_⟩
        intro h; rw [hex] at h; cases h
      · have hsrv : (spin p.period (main_init p now) pre0).services = true := by
          rw [spin_services]; exact (main_init_services p now hsave).1
        simp [step, hex, dispatch, hsrv, stop_cb]
  refine ⟨?_, key⟩
  unfold main at key ⊢
  rw [spin_append]
  by_cases hex : (spin p.period (main_init p now) pre).exited = true
  · exact spin_exited _ _ _ hex
  · exact spin_idle _ _ _ (key.2 (by simpa using hex)) key.1 hmid

/-- C1: while the recorder is idle (from a launch with `save_all_video` until the first
start command, and from any stop until the next start command) the deliveries change
nothing, however many frames arrive: the state after them, with the sink, the written
frames, `g_count` and `g_last_wrote_time`, is the state before them, and the sink is closed. -/
theorem idle_deliveries_change_nothing (p : Params) (now : Nat) (pre mid : List Event)
    (s : Recorder) (m : ImageMsg)
    (hsave : p.save_all_video = true)
    (hpre : pre = [] ∨ ∃ pre0, pre = pre0 ++ [Event.stop])
    (hmid : ∀ e ∈ mid, e.is_start = false) :
    main p now (pre ++ mid) = main p now pre ∧
    (main p now pre).opened = false ∧
    ((main p now pre).exited = false → (main p now pre).recording = false) ∧
    (stop_cb s).recording = false ∧ (stop_cb s).opened = false ∧
    callback p.period (stop_cb s) m = stop_cb s ∧
    spin p.period (stop_cb s) mid = stop_cb s := by
  obtain ⟨h1, h2, h3⟩ := idle_process p now pre mid hsave hpre hmid
  exact ⟨h1, h2, h3, rfl, rfl, rfl, spin_idle _ _ _ rfl rfl hmid⟩

theorem idle_deliveries_change_nothing_witness :
    main commanded_params 0
        ([Event.start 1, Event.image (good_frame 2000000000), Event.stop] ++
          [Event.image (good_frame 3000000000), Event.stop,
           Event.image (good_frame 4000000000)]) =
      main commanded_params 0
        [Event.start 1, Event.image (good_frame 2000000000), Event.stop] ∧
    (main commanded_params 0
        [Event.start 1, Event.image (good_frame 2000000000), Event.stop]).opened = false ∧
    (main commanded_params 0
        [Event.start 1, Event.image (good_frame 2000000000), Event.stop]).written
      = [2000000000] ∧
    (main commanded_params 0
        ([Event.start 1, Event.image (good_frame 2000000000), Event.stop] ++
          [Event.image (good_frame 3000000000), Event.stop,
           Event.image (good_frame 4000000000)])).written = [2000000000] :=
  have h := idle_deliveries_change_nothing commanded_params 0
    [Event.start 1, Event.image (good_frame 2000000000), Event.stop]
    [Event.image (good_frame 3000000000), Event.stop, Event.image (good_frame 4000000000)]
    initial (good_frame 3000000000)
    rfl (Or.inr ⟨[Event.start 1, Event.image (good_frame 2000000000)], rfl⟩)
    (by simp [Event.is_start])
  ⟨h.1, h.2.1, by decide, (congrArg Recorder.written h.1).trans (by decide)⟩

/-- C3: with a positive rate period, a frame stamped no later than `g_last_wrote_time` is
skipped by the rate gate: nothing is written and `g_count` and `g_last_wrote_time` stay as they
were; and over any sequence of deliveries `g_last_wrote_time` never moves backward. -/
theorem stale_frame_is_rejected (period : Int) (s : Recorder) (m : ImageMsg) (es : List Event)
    (hpos : 0 < period) (hle : m.stamp ≤ s.g_last_wrote_time) :
    rate_gate_skips period s m = true ∧
    (callback period s m).written = s.written ∧
    (callback period s m).g_count = s.g_count ∧
    (callback period s m).g_last_wrote_time = s.g_last_wrote_time ∧
    s.g_last_wrote_time ≤ (spin period s es).g_last_wrote_time := by
  have hskip : rate_gate_skips period s m = true := by
    simp only [rate_gate_skips, decide_eq_true_eq]
    omega
  obtain ⟨h1, h2, h3⟩ := callback_of_skip period s m hskip
  exact ⟨hskip, h1, h2, h3, spin_last period s es (le_of_lt hpos)⟩

theorem stale_frame_is_rejected_witness :
    rate_gate_skips period_fps10
        (main armed_params 0 [Event.image (good_frame 2000000000)])
        (good_frame 1500000000) = true ∧
    (callback period_fps10 (main armed_params 0 [Event.image (good_frame 2000000000)])
        (good_frame 1500000000)).written = [2000000000] ∧
    (callback period_fps10 (main armed_params 0 [Event.image (good_frame 2000000000)])
        (good_frame 1500000000)).g_count = 1 ∧
    (callback period_fps10 (main armed_params 0 [Event.image (good_frame 2000000000)])
        (good_frame 1500000000)).g_last_wrote_time = 2000000000 ∧
    2000000000 ≤ (spin period_fps10 (main armed_params 0 [Event.image (good_frame 2000000000)])
        [Event.image (good_frame 1000000000), Event.image (good_frame 3000000000)]
        ).g_last_wrote_time :=
  stale_frame_is_rejected period_fps10
    (main armed_params 0 [Event.image (good_frame 2000000000)]) (good_frame 1500000000)
    [Event.image (good_frame 1000000000), Event.image (good_frame 3000000000)]
    (by decide) (by decide)

/-- C5, as the code has it: a frame whose stamp is exactly one rate period after
`g_last_wrote_time` passes the rate gate; it is written when its conversion gives an image,
and dropped with nothing changed but the opened sink when it does not. -/
theorem tie_passes_rate_gate (period : Int) (s : Recorder) (m : ImageMsg)
    (hrec : s.recording = true) (hopen : s.opened = true ∨ m.open_ok = true)
    (htie : (m.stamp : Int) - (s.g_last_wrote_time : Int) = period) :
    rate_gate_skips period s m = false ∧
    (m.conversion = Conversion.image →
      (callback period s m).written = s.written ++ [m.stamp] ∧
      (callback period s m).g_count = int_wrap (s.g_count + 1) ∧
      (callback period s m).g_last_wrote_time = m.stamp) ∧
    (m.conversion ≠ Conversion.image →
      (callback period s m).written = s.written ∧
      (callback period s m).g_count = s.g_count ∧
      (callback period s m).g_last_wrote_time = s.g_last_wrote_time) := by
  have hpass : rate_gate_skips period s m = false := by
    simp only [rate_gate_skips, decide_eq_false_iff_not]
    omega
  refine ⟨hpass, ?_, ?_⟩
  · intro hc
    rw [callback_of_pass period s m hrec hopen hpass]
    simp [convert_and_write, hc]
  · intro hc
    rw [callback_of_pass period s m hrec hopen hpass]
    unfold convert_and_write
    split
    · exact ⟨rfl, rfl, rfl⟩
    · exact ⟨rfl, rfl, rfl⟩
    · next h => exact absurd h hc

theorem tie_passes_rate_gate_witness :
    rate_gate_skips period_fps10
        (main armed_params 0 [Event.image (good_frame 2000000000)])
        (good_frame 2100000000) = false ∧
    ((good_frame 2100000000).conversion = Conversion.image →
      (callback period_fps10 (main armed_params 0 [Event.image (good_frame 2000000000)])
        (good_frame 2100000000)).written = [2000000000] ++ [2100000000] ∧
      (callback period_fps10 (main armed_params 0 [Event.image (good_frame 2000000000)])
        (good_frame 2100000000)).g_count = int_wrap (1 + 1) ∧
      (callback period_fps10 (main armed_params 0 [Event.image (good_frame 2000000000)])
        (good_frame 2100000000)).g_last_wrote_time = 2100000000) ∧
    ((good_frame 2100000000).conversion ≠ Conversion.image →
      (callback period_fps10 (main armed_params 0 [Event.image (good_frame 2000000000)])
        (good_frame 2100000000)).written = [2000000000] ∧
      (callback period_fps10 (main armed_params 0 [Event.image (good_frame 2000000000)])
        (good_frame 2100000000)).g_count = 1 ∧
      (callback period_fps10 (main armed_params 0 [Event.image (good_frame 2000000000)])
        (good_frame 2100000000)).g_last_wrote_time = 2000000000) :=
  tie_passes_rate_gate period_fps10
    (main armed_params 0 [Event.image (good_frame 2000000000)]) (good_frame 2100000000)
    (by decide) (by decide) (by decide)

/-- C5 as stated fails: with `fps = 10`, after a frame written at 2.0 s, the frame stamped
2.1 s (exactly one period later) is not skipped but written, and `g_count` goes from 1 to 2. -/
theorem tie_is_written :
    (main armed_params 0 [Event.image (good_frame 2000000000)]).recording = true ∧
    (main armed_params 0 [Event.image (good_frame 2000000000)]).g_last_wrote_time
      = 2000000000 ∧
    (main armed_params 0 [Event.image (good_frame 2000000000)]).g_count = 1 ∧
    ((good_frame 2100000000).stamp : Int) - (2000000000 : Int) = period_fps10 ∧
    (callback period_fps10 (main armed_params 0 [Event.image (good_frame 2000000000)])
        (good_frame 2100000000)).written = [2000000000, 2100000000] ∧
    (callback period_fps10 (main armed_params 0 [Event.image (good_frame 2000000000)])
        (good_frame 2100000000)).g_count = 2 := by
  decide

/-- Every delivery either leaves `g_count` and the written frames alone, or is an image
delivered while recording whose conversion gave an image, appended to the sink and counted
once. -/
theorem step_count (period : Int) (s : Recorder) (e : Event) :
    ((step period s e).g_count = s.g_count ∧ (step period s e).written = s.written) ∨
    (∃ m, e = Event.image m ∧ m.conversion = Conversion.image ∧ s.recording = true ∧
      (step period s e).g_count = int_wrap (s.g_count + 1) ∧
      (step period s e).written = s.written ++ [m.stamp]) := by
  unfold step
  split
  · exact Or.inl ⟨rfl, rfl⟩
  · cases e with
    | start now => left; simp only [dispatch, start_cb]; split <;> exact ⟨rfl, rfl⟩
    | start_named str now =>
      left; simp only [dispatch, start_string_cb]; split <;> exact ⟨rfl, rfl⟩
    | stop => left; simp only [dispatch, stop_cb]; split <;> exact ⟨rfl, rfl⟩
    | image m =>
      simp only [dispatch]
      split
      · by_cases hrec : s.recording = true
        · by_cases hskip : rate_gate_skips period s m = true
          · obtain ⟨h1, h2, _⟩ := callback_of_skip period s m hskip
            exact Or.inl ⟨h2, h1⟩
          · by_cases hopen : s.opened = true ∨ m.open_ok = true
            · rw [callback_of_pass period s m hrec hopen (by simpa using hskip)]
              cases hc : m.conversion with
              | exception => left; simp [convert_and_write, hc]
              | empty => left; simp [convert_and_write, hc]
              | image =>
                right
                exact ⟨m, rfl, hc, hrec, by simp [convert_and_write, hc],
                  by simp [convert_and_write, hc]⟩
            · left
              simp only [not_or, Bool.not_eq_true] at hopen
              simp [callback, hrec, hopen.1, hopen.2]
        · left
          simp [callback, hrec]
      · exact Or.inl ⟨rfl, rfl⟩

/-- C8: a frame that passes the rate gate but whose conversion throws or gives an empty
image is dropped: the callback changes nothing but the sink it had to open, so nothing is
written and `g_count`, `g_last_wrote_time`, `recording` and `filename` are as before, and
any later frame meets the same rate gate as before; and a delivery changes `g_count` only
when it appends a frame to the sink: whenever `g_count` goes up it goes up by one and a
frame was appended (an append at `2147483647` wraps the 32-bit counter around instead). -/
theorem failed_conversion_changes_nothing (period : Int) (s : Recorder) (m next : ImageMsg)
    (s0 : Recorder) (e : Event)
    (hrec : s.recording = true) (hopen : s.opened = true ∨ m.open_ok = true)
    (hpass : rate_gate_skips period s m = false)
    (hconv : m.conversion = Conversion.exception ∨ m.conversion = Conversion.empty)
    (hint : int_range s0.g_count) :
    callback period s m =
      { s with opened := true,
               opens := if s.opened then s.opens else s.opens ++ [s.filename] } ∧
    (callback period s m).written = s.written ∧
    (callback period s m).g_count = s.g_count ∧
    (callback period s m).g_last_wrote_time = s.g_last_wrote_time ∧
    (callback period s m).recording = s.recording ∧
    (callback period s m).filename = s.filename ∧
    rate_gate_skips period (callback period s m) next = rate_gate_skips period s next ∧
    (((step period s0 e).g_count = s0.g_count ∧ (step period s0 e).written = s0.written) ∨
     (∃ m0, e = Event.image m0 ∧ m0.conversion = Conversion.image ∧ s0.recording = true ∧
       (step period s0 e).written = s0.written ++ [m0.stamp] ∧
       (step period s0 e).g_count = int_wrap (s0.g_count + 1) ∧
       (s0.g_count < 2147483647 → (step period s0 e).g_count = s0.g_count + 1) ∧
       (s0.g_count = 2147483647 → (step period s0 e).g_count = -2147483648))) ∧
    (s0.g_count < (step period s0 e).g_count →
      (step period s0 e).g_count = s0.g_count + 1 ∧
      ∃ m0, e = Event.image m0 ∧ m0.conversion = Conversion.image ∧ s0.recording = true ∧
        (step period s0 e).written = s0.written ++ [m0.stamp]) ∧
    ((step period s0 e).g_count ≠ s0.g_count →
      ∃ m0, e = Event.image m0 ∧ m0.conversion = Conversion.image ∧ s0.recording = true ∧
        (step period s0 e).written = s0.written ++ [m0.stamp]) := by
  have heq : callback period s m =
      { s with opened := true,
               opens := if s.opened then s.opens else s.opens ++ [s.filename] } := by
    rw [callback_of_pass period s m hrec hopen hpass]
    rcases hconv with hc | hc <;> simp [convert_and_write, hc]
  unfold int_range at hint
  have hcount := step_count period s0 e
  refine ⟨heq, ?_, ?_, ?_, ?_, ?_, ?_, ?_, ?_, ?_⟩
  · rw [heq]
  · rw [heq]
  · rw [heq]
  · rw [heq]
  · rw [heq]
  · rw [heq]; rfl
  · rcases hcount with h | ⟨m0, h1, h2, h3, h4, h5⟩
    · exact Or.inl h
    · refine Or.inr ⟨m0, h1, h2, h3, h5, h4, ?_, ?_⟩
      · intro hlt; rw [h4]; unfold int_wrap; omega
      · intro hmax; rw [h4]; unfold int_wrap; omega
  · intro hlt
    rcases hcount with h | ⟨m0, h1, h2, h3, h4, h5⟩
    · rw [h.1] at hlt; exact absurd hlt (lt_irrefl _)
    · rw [h4] at hlt ⊢
      unfold int_wrap at hlt ⊢
      exact ⟨by omega, m0, h1, h2, h3, h5⟩
  · intro hne
    rcases hcount with h | ⟨m0, h1, h2, h3, _, h5⟩
    · exact absurd h.1 hne
    · exact ⟨m0, h1, h2, h3, h5⟩

theorem failed_conversion_changes_nothing_witness :
    callback period_fps10 (main armed_params 0 [Event.image (good_frame 2000000000)])
        (bad_frame 2200000000) =
      main armed_params 0 [Event.image (good_frame 2000000000)] ∧
    (callback period_fps10 (main armed_params 0 [Event.image (good_frame 2000000000)])
        (bad_frame 2200000000)).g_last_wrote_time = 2000000000 ∧
    rate_gate_skips period_fps10
        (callback period_fps10 (main armed_params 0 [Event.image (good_frame 2000000000)])
          (bad_frame 2200000000)) (good_frame 2250000000) = false ∧
    (step period_fps10 full_counter (Event.image (good_frame 2200000000))).written =
      [2000000000, 2200000000] ∧
    (step period_fps10 full_counter (Event.image (good_frame 2200000000))).g_count =
      -2147483648 :=
  have h := failed_conversion_changes_nothing period_fps10
    (main armed_params 0 [Event.image (good_frame 2000000000)]) (bad_frame 2200000000)
    (good_frame 2250000000) full_counter (Event.image (good_frame 2200000000))
    (by decide) (by decide) (by decide) (by decide) (by decide)
  ⟨h.1.trans (by decide), h.2.2.2.1.trans (by decide), h.2.2.2.2.2.2.1.trans (by decide),
   by decide, by decide⟩

/-- C9: `main` exits before subscribing exactly when the codec does not have four
characters; then no delivery is ever handled (the process state stays the one at exit,
with nothing opened and nothing written); with a codec of four characters `main` does not
exit and subscribes. -/
theorem codec_length_check (p : Params) (now : Nat) (es : List Event) :
    ((main_init p now).exited = true ↔ p.codec.length ≠ 4) ∧
    ((main_init p now).subscribed = true ↔ p.codec.length = 4) ∧
    (p.codec.length ≠ 4 →
      main p now es = main_init p now ∧
      (main p now es).opens = [] ∧ (main p now es).written = [] ∧
      (main p now es).g_count = 0) := by
  have hex : (main_init p now).exited = true ↔ p.codec.length ≠ 4 := by
    by_cases hc : p.codec.length = 4 <;> cases hs : p.save_all_video <;>
      simp [main_init, main_services, main_filename, initial, hc, hs]
  have hsub : (main_init p now).subscribed = true ↔ p.codec.length = 4 := by
    by_cases hc : p.codec.length = 4 <;> cases hs : p.save_all_video <;>
      simp [main_init, main_services, main_filename, initial, hc, hs]
  refine ⟨hex, hsub, ?_⟩
  intro hc
  have hmain : main p now es = main_init p now := spin_exited _ _ _ (hex.mpr hc)
  rw [hmain]
  refine ⟨rfl, ?_, ?_, ?_⟩ <;> cases hs : p.save_all_video <;>
    simp [main_init, main_services, main_filename, initial, hc, hs]

theorem codec_length_check_witness :
    (main_init bad_codec_params 0).exited = true ∧
    (main_init bad_codec_params 0).subscribed = false ∧
    (main bad_codec_params 0 [Event.image (good_frame 2000000000)]).written = [] ∧
    (main_init armed_params 0).exited = false ∧
    (main_init armed_params 0).subscribed = true :=
  ⟨(codec_length_check bad_codec_params 0 []).1.mpr (by decide), by decide,
   ((codec_length_check bad_codec_params 0 [Event.image (good_frame 2000000000)]).2.2
      (by decide)).2.2.1,
   by decide, (codec_length_check armed_params 0 []).2.1.mpr (by decide)⟩

/-- C10, as the code has it: `start` on a recorder that is already recording changes
`filename`, to the stamped `filename_orig`, and nothing else; two calls in a row leave the
state of a single call made at the second clock reading, which is the state after the first
call only when the two clock readings are equal. -/
theorem start_restamps_filename (s : Recorder) (now1 now2 : Nat)
    (hrec : s.recording = true) :
    start_cb s now1 = { s with filename := stamp_filename s.filename_orig now1 } ∧
    start_cb (start_cb s now1) now2 = start_cb s now2 ∧
    (start_cb (start_cb s now1) now2 = start_cb s now1 ↔ now1 = now2) := by
  refine ⟨?_, rfl, ?_⟩
  · cases s
    simp only at hrec
    simp [start_cb, hrec]
  · constructor
    · intro h
      have hf := congrArg Recorder.filename h
      exact ((stamp_filename_inj s.filename_orig now2 now1).mp hf).symm
    · rintro rfl; rfl

theorem start_restamps_filename_witness :
    start_cb (main commanded_params 0 [Event.start 5]) 6 =
      { main commanded_params 0 [Event.start 5] with
        filename := stamp_filename (main commanded_params 0 [Event.start 5]).filename_orig 6 } ∧
    start_cb (start_cb (main commanded_params 0 [Event.start 5]) 6) 7 =
      start_cb (main commanded_params 0 [Event.start 5]) 7 ∧
    (start_cb (start_cb (main commanded_params 0 [Event.start 5]) 6) 7 =
      start_cb (main commanded_params 0 [Event.start 5]) 6 ↔ 6 = 7) :=
  start_restamps_filename (main commanded_params 0 [Event.start 5]) 6 7 (by decide)

theorem decimal_5 : decimal 5 = ['5'] := by
  simp [decimal, Nat.digitChar]

theorem decimal_6 : decimal 6 = ['6'] := by
  simp [decimal, Nat.digitChar]

/-- C10 as stated fails: after `start` at clock reading 5 the recorder is recording into
`output_5.avi`; a second `start` at clock reading 6 changes `filename` to `output_6.avi`, so
the state after two calls is not the state after one. -/
theorem start_while_recording_changes_filename :
    (main commanded_params 0 [Event.start 5]).recording = true ∧
    (main commanded_params 0 [Event.start 5]).filename =
      ['o', 'u', 't', 'p', 'u', 't', '_', '5', '.', 'a', 'v', 'i'] ∧
    (main commanded_params 0 [Event.start 5, Event.start 6]).filename =
      ['o', 'u', 't', 'p', 'u', 't', '_', '6', '.', 'a', 'v', 'i'] ∧
    main commanded_params 0 [Event.start 5, Event.start 6] ≠
      main commanded_params 0 [Event.start 5] := by
  have h5 : (main commanded_params 0 [Event.start 5]).filename =
      ['o', 'u', 't', 'p', 'u', 't', '_', '5', '.', 'a', 'v', 'i'] := by
    show stamp_filename ['o', 'u', 't', 'p', 'u', 't'] 5 = _
    rw [stamp_filename_eq, decimal_5]; rfl
  have h6 : (main commanded_params 0 [Event.start 5, Event.start 6]).filename =
      ['o', 'u', 't', 'p', 'u', 't', '_', '6', '.', 'a', 'v', 'i'] := by
    show stamp_filename ['o', 'u', 't', 'p', 'u', 't'] 6 = _
    rw [stamp_filename_eq, decimal_6]; rfl
  refine ⟨by decide, h5, h6, ?_⟩
  intro h
  have hf := congrArg Recorder.filename h
  rw [h5, h6] at hf
  revert hf
  decide

/-- A delivery either leaves the written frames and `g_last_wrote_time` alone, or appends
the delivered frame and sets `g_last_wrote_time` to its stamp. -/
theorem step_written_last (period : Int) (s : Recorder) (e : Event) :
    ((step period s e).written = s.written ∧
      (step period s e).g_last_wrote_time = s.g_last_wrote_time) ∨
    (∃ m, e = Event.image m ∧ (step period s e).written = s.written ++ [m.stamp] ∧
      (step period s e).g_last_wrote_time = m.stamp) := by
  unfold step
  split
  · exact Or.inl ⟨rfl, rfl⟩
  · cases e with
    | start now => left; simp only [dispatch, start_cb]; split <;> exact ⟨rfl, rfl⟩
    | start_named str now =>
      left; simp only [dispatch, start_string_cb]; split <;> exact ⟨rfl, rfl⟩
    | stop => left; simp only [dispatch, stop_cb]; split <;> exact ⟨rfl, rfl⟩
    | image m =>
      simp only [dispatch]
      split
      · by_cases hrec : s.recording = true
        · by_cases hskip : rate_gate_skips period s m = true
          · obtain ⟨h1, _, h3⟩ := callback_of_skip period s m hskip
            exact Or.inl ⟨h1, h3⟩
          · by_cases hopen : s.opened = true ∨ m.open_ok = true
            · rw [callback_of_pass period s m hrec hopen (by simpa using hskip)]
              cases hc : m.conversion with
              | exception => left; simp [convert_and_write, hc]
              | empty => left; simp [convert_and_write, hc]
              | image =>
                right
                exact ⟨m, rfl, by simp [convert_and_write, hc],
                  by simp [convert_and_write, hc]⟩
            · left
              simp only [not_or, Bool.not_eq_true] at hopen
              simp [callback, hrec, hopen.1, hopen.2]
        · left
          simp [callback, hrec]
      · exact Or.inl ⟨rfl, rfl⟩

theorem last_written_step (period : Int) (s : Recorder) (e : Event)
    (h : s.g_last_wrote_time = last_written s) :
    (step period s e).g_last_wrote_time = last_written (step period s e) := by
  rcases step_written_last period s e with ⟨h1, h2⟩ | ⟨m, _, h1, h2⟩
  · rw [h2, h]; unfold last_written; rw [h1]
  · rw [h2]; unfold last_written; rw [h1]; simp

theorem last_written_spin (period : Int) (es : List Event) (s : Recorder)
    (h : s.g_last_wrote_time = last_written s) :
    (spin period s es).g_last_wrote_time = last_written (spin period s es) := by
  induction es generalizing s with
  | nil => exact h
  | cons e es ih => rw [spin_cons]; exact ih _ (last_written_step period s e h)

/-- In every state of a run `g_last_wrote_time` is the stamp of the last frame written,
and time zero when no frame has been written. -/
theorem main_last_written (p : Params) (now : Nat) (es : List Event) :
    (main p now es).g_last_wrote_time = last_written (main p now es) := by
  refine last_written_spin p.period es (main_init p now) ?_
  by_cases hc : p.codec.length = 4 <;> cases hs : p.save_all_video <;>
    simp [main_init, main_services, main_filename, initial, last_written, hc, hs]

/-- A delivered frame is appended to the sink when it is due, and not otherwise. -/
theorem step_image_due (period : Int) (t : Recorder) (m : ImageMsg)
    (hinv : t.g_last_wrote_time = last_written t) :
    (due period t m →
      (step period t (Event.image m)).written = t.written ++ [m.stamp]) ∧
    (¬ due period t m → (step period t (Event.image m)).written = t.written) := by
  constructor
  · rintro ⟨hex, hsub, hrec, hopen, hper, hconv⟩
    have hpass : rate_gate_skips period t m = false := by
      simp only [rate_gate_skips, decide_eq_false_iff_not, hinv]
      omega
    have hstep : step period t (Event.image m) = callback period t m := by
      simp [step, dispatch, hex, hsub]
    rw [hstep, callback_of_pass period t m hrec hopen hpass]
    simp [convert_and_write, hconv]
  · intro hnot
    rcases step_written_last period t (Event.image m) with ⟨h1, _⟩ | ⟨m0, he, h1, _⟩
    · exact h1
    · exfalso
      apply hnot
      cases he
      have hlen : (step period t (Event.image m)).written ≠ t.written := by
        rw [h1]; simp
      by_cases hex : t.exited = true
      · rw [step_exited period t _ hex] at hlen; exact absurd rfl hlen
      · have hex2 : t.exited = false := by simpa using hex
        by_cases hsub : t.subscribed = true
        · have hstep : step period t (Event.image m) = callback period t m := by
            simp [step, dispatch, hex2, hsub]
          rw [hstep] at hlen
          by_cases hrec : t.recording = true
          · by_cases hopen : t.opened = true ∨ m.open_ok = true
            · by_cases hskip : rate_gate_skips period t m = true
              · exact absurd (callback_of_skip period t m hskip).1 hlen
              · have hpass : rate_gate_skips period t m = false := by simpa using hskip
                rw [callback_of_pass period t m hrec hopen hpass] at hlen
                have hconv : m.conversion = Conversion.image := by
                  cases hc : m.conversion with
                  | exception => simp [convert_and_write, hc] at hlen
                  | empty => simp [convert_and_write, hc] at hlen
                  | image => rfl
                simp only [rate_gate_skips, decide_eq_false_iff_not, hinv] at hpass
                exact ⟨hex2, hsub, hrec, hopen, by omega, hconv⟩
            · simp only [not_or, Bool.not_eq_true] at hopen
              simp [callback, hrec, hopen.1, hopen.2] at hlen
          · simp [callback, hrec] at hlen
        · simp [step, dispatch, hex2, hsub] at hlen

theorem step_start (period : Int) (s : Recorder) (c : Event) (hc : c.is_start = true) :
    (step period s c).written = s.written ∧
    (step period s c).g_last_wrote_time = s.g_last_wrote_time ∧
    (s.exited = false → s.services = true → (step period s c).recording = true) := by
  cases c with
  | image m => simp [Event.is_start] at hc
  | stop => simp [Event.is_start] at hc
  | start now =>
    cases hex : s.exited <;> cases hsrv : s.services <;>
      simp [step, dispatch, start_cb, hex, hsrv]
  | start_named str now =>
    cases hex : s.exited <;> cases hsrv : s.services <;>
      simp [step, dispatch, start_string_cb, hex, hsrv]

theorem main_snoc (p : Params) (now : Nat) (es : List Event) (e : Event) :
    main p now (es ++ [e]) = step p.period (main p now es) e := by
  unfold main
  rw [spin_append, spin_cons, spin_nil]

/-- C4, as the code has it: the first frame after a start or restart is gated like any
other. In every state of a run `g_last_wrote_time` is the stamp of the last frame written
(time zero when there is none), the start commands leave it and the written frames as they
are, and a delivered frame is written exactly when it is due: the recorder records, the
sink is open or opens, the conversion gives an image and the stamp is at least one rate
period after the last frame written. So after a restart the first frame is measured
against the last frame written before, and after launch against time zero. With `fps = 10`
and frames at 0.0, 0.05, 0.10 and 0.15 s from launch, the frame at 0.10 s alone is
written. -/
theorem first_frame_is_gated (period : Int) (p : Params) (launch : Nat) (s : Recorder)
    (m : ImageMsg) (str : List Char) (now : Nat) (es pre : List Event) (c : Event)
    (hc : c.is_start = true) :
    (rate_gate_skips period s m = false ↔
      period ≤ (m.stamp : Int) - (s.g_last_wrote_time : Int)) ∧
    (rate_gate_skips p.period (main_init p launch) m = false ↔ p.period ≤ (m.stamp : Int)) ∧
    (rate_gate_skips period (start_cb s now) m = rate_gate_skips period s m) ∧
    (rate_gate_skips period (start_string_cb s str now) m = rate_gate_skips period s m) ∧
    (main p launch es).g_last_wrote_time = last_written (main p launch es) ∧
    (due p.period (main p launch es) m →
      (main p launch (es ++ [Event.image m])).written =
        (main p launch es).written ++ [m.stamp]) ∧
    (¬ due p.period (main p launch es) m →
      (main p launch (es ++ [Event.image m])).written = (main p launch es).written) ∧
    (main p launch (pre ++ [c])).written = (main p launch pre).written ∧
    (main p launch (pre ++ [c])).g_last_wrote_time = last_written (main p launch pre) ∧
    ((main p launch pre).exited = false → (main p launch pre).services = true →
      (main p launch (pre ++ [c])).recording = true) ∧
    (due p.period (main p launch (pre ++ [c])) m →
      (main p launch (pre ++ [c] ++ [Event.image m])).written =
        (main p launch pre).written ++ [m.stamp]) ∧
    (¬ due p.period (main p launch (pre ++ [c])) m →
      (main p launch (pre ++ [c] ++ [Event.image m])).written =
        (main p launch pre).written) ∧
    ((p.save_all_video = false ∧ p.codec.length = 4 ∧ m.open_ok = true ∧
        p.period ≤ (m.stamp : Int) ∧ m.conversion = Conversion.image) →
      (main p launch [Event.image m]).written = [m.stamp]) ∧
    (¬ (p.save_all_video = false ∧ p.codec.length = 4 ∧ m.open_ok = true ∧
        p.period ≤ (m.stamp : Int) ∧ m.conversion = Conversion.image) →
      (main p launch [Event.image m]).written = []) ∧
    (main armed_params 0
      [Event.image (good_frame 0), Event.image (good_frame 50000000),
       Event.image (good_frame 100000000), Event.image (good_frame 150000000)]).written
      = [100000000] ∧
    (main armed_params 0
      [Event.image (good_frame 0), Event.image (good_frame 50000000),
       Event.image (good_frame 100000000), Event.image (good_frame 150000000)]).g_count
      = 1 := by
  have hlast : (main_init p launch).g_last_wrote_time = 0 := by
    by_cases hc : p.codec.length = 4 <;> cases hs : p.save_all_video <;>
      simp [main_init, main_services, main_filename, initial, hc, hs]
  have hgen : ∀ fs : List Event,
      (due p.period (main p launch fs) m →
        (main p launch (fs ++ [Event.image m])).written =
          (main p launch fs).written ++ [m.stamp]) ∧
      (¬ due p.period (main p launch fs) m →
        (main p launch (fs ++ [Event.image m])).written = (main p launch fs).written) := by
    intro fs
    rw [main_snoc]
    exact step_image_due p.period (main p launch fs) m (main_last_written p launch fs)
  have hstart := step_start p.period (main p launch pre) c hc
  rw [← main_snoc] at hstart
  obtain ⟨hs1, hs2, hs3⟩ := hstart
  have hdue0 : due p.period (main p launch []) m ↔
      (p.save_all_video = false ∧ p.codec.length = 4 ∧ m.open_ok = true ∧
        p.period ≤ (m.stamp : Int) ∧ m.conversion = Conversion.image) := by
    show due p.period (main_init p launch) m ↔ _
    by_cases hcd : p.codec.length = 4 <;> cases hsv : p.save_all_video <;>
      simp [due, last_written, main_init, main_services, main_filename, initial, hcd, hsv]
  have hw0 : (main p launch []).written = [] := by
    show (main_init p launch).written = []
    by_cases hcd : p.codec.length = 4 <;> cases hsv : p.save_all_video <;>
      simp [main_init, main_services, main_filename, initial, hcd, hsv]
  refine ⟨by simp [rate_gate_skips], by simp [rate_gate_skips, hlast], rfl, rfl,
    main_last_written p launch es, (hgen es).1, (hgen es).2, hs1, ?_, hs3, ?_, ?_, ?_, ?_,
    by decide, by decide⟩
  · rw [hs2]; exact main_last_written p launch pre
  · intro hd; rw [(hgen (pre ++ [c])).1 hd, hs1]
  · intro hd; rw [(hgen (pre ++ [c])).2 hd, hs1]
  · intro hd
    have := (hgen []).1 (hdue0.mpr hd)
    rwa [hw0] at this
  · intro hd
    have := (hgen []).2 (fun h => hd (hdue0.mp h))
    rwa [hw0] at this

theorem first_frame_is_gated_witness :
    (main commanded_params 0
      [Event.start 1, Event.image (good_frame 2000000000), Event.stop,
       Event.start 3]).g_last_wrote_time = 2000000000 ∧
    (main commanded_params 0
      ([Event.start 1, Event.image (good_frame 2000000000), Event.stop] ++ [Event.start 3] ++
        [Event.image (good_frame 2050000000)])).written = [2000000000] ∧
    (main commanded_params 0
      ([Event.start 1, Event.image (good_frame 2000000000), Event.stop] ++ [Event.start 3] ++
        [Event.image (good_frame 2100000000)])).written = [2000000000, 2100000000] ∧
    (main armed_params 0 [Event.image (good_frame 50000000)]).written = [] :=
  ⟨(first_frame_is_gated period_fps10 commanded_params 0 initial (good_frame 2050000000) [] 0
      [] [Event.start 1, Event.image (good_frame 2000000000), Event.stop] (Event.start 3)
      rfl).2.2.2.2.2.2.2.2.1.trans (by decide),
   ((first_frame_is_gated period_fps10 commanded_params 0 initial (good_frame 2050000000) [] 0
      [] [Event.start 1, Event.image (good_frame 2000000000), Event.stop] (Event.start 3)
      rfl).2.2.2.2.2.2.2.2.2.2.2.1 (by decide)).trans (by decide),
   ((first_frame_is_gated period_fps10 commanded_params 0 initial (good_frame 2100000000) [] 0
      [] [Event.start 1, Event.image (good_frame 2000000000), Event.stop] (Event.start 3)
      rfl).2.2.2.2.2.2.2.2.2.2.1 (by decide)).trans (by decide),
   (first_frame_is_gated period_fps10 armed_params 0 initial (good_frame 50000000) [] 0
      [] [] (Event.start 3) rfl).2.2.2.2.2.2.2.2.2.2.2.2.2.1 (by decide)⟩

/-- C4 as stated fails: with `fps = 10` the first frame after launch, stamped 0.0 s, is
skipped by the rate gate, and of the frames at 0.0, 0.05, 0.10 and 0.15 s only the one at
0.10 s is written (one frame, not two); and after a stop and a new start the first frame,
0.05 s after the last written one, is skipped as well. -/
theorem first_frame_can_be_skipped :
    (main_init armed_params 0).recording = true ∧
    rate_gate_skips period_fps10 (main_init armed_params 0) (good_frame 0) = true ∧
    (main armed_params 0 [Event.image (good_frame 0)]).written = [] ∧
    (main armed_params 0
      [Event.image (good_frame 0), Event.image (good_frame 50000000),
       Event.image (good_frame 100000000), Event.image (good_frame 150000000)]).written
      = [100000000] ∧
    (main armed_params 0
      [Event.image (good_frame 0), Event.image (good_frame 50000000),
       Event.image (good_frame 100000000), Event.image (good_frame 150000000)]).g_count
      = 1 ∧
    (main commanded_params 0
      [Event.start 1, Event.image (good_frame 2000000000), Event.stop]).written
      = [2000000000] ∧
    (main commanded_params 0
      [Event.start 1, Event.image (good_frame 2000000000), Event.stop, Event.start 3,
       Event.image (good_frame 2050000000)]).written = [2000000000] := by
  decide

/-- C7: `stamp_filename` cuts the name after its last `/` or `\\` (nowhere when it has
none, the directory being empty then) and returns directory, stem, `_`, the decimal digits
of the clock reading and `.avi` in a row, which is the name followed by `_`, the digits and
`.avi`; for `/a/b/clip` the result starts with `/a/b/clip_` and ends with `.avi`; and two
clock readings give the same result only when they are equal. -/
theorem stamp_filename_spec (f : List Char) (n k : Nat) :
    (∃ dir stem, f = dir ++ stem ∧
      (∀ c ∈ stem, c ≠ '/' ∧ c ≠ '\\') ∧
      ((∀ c ∈ f, c ≠ '/' ∧ c ≠ '\\') → dir = []) ∧
      (dir = [] ∨ ∃ d sep, dir = d ++ [sep] ∧ (sep = '/' ∨ sep = '\\')) ∧
      stamp_filename f n = dir ++ (stem ++ ['_'] ++ decimal n ++ ['.', 'a', 'v', 'i'])) ∧
    stamp_filename f n = f ++ ['_'] ++ decimal n ++ ['.', 'a', 'v', 'i'] ∧
    undecimal (decimal n) = n ∧
    ['/', 'a', '/', 'b', '/', 'c', 'l', 'i', 'p', '_'] <+:
      stamp_filename ['/', 'a', '/', 'b', '/', 'c', 'l', 'i', 'p'] n ∧
    ['.', 'a', 'v', 'i'] <:+ stamp_filename ['/', 'a', '/', 'b', '/', 'c', 'l', 'i', 'p'] n ∧
    stamp_filename ['/', 'a', '/', 'b', '/', 'c', 'l', 'i', 'p'] 1700000000123456789 =
      ['/', 'a', '/', 'b', '/', 'c', 'l', 'i', 'p', '_', '1', '7', '0', '0', '0', '0', '0',
       '0', '0', '0', '1', '2', '3', '4', '5', '6', '7', '8', '9', '.', 'a', 'v', 'i'] ∧
    (stamp_filename f n = stamp_filename f k ↔ n = k) := by
  refine ⟨?_, stamp_filename_eq f n, undecimal_decimal n, ?_, ?_, ?_, stamp_filename_inj f n k⟩
  · obtain ⟨dir, stem, hf, hdir, hstem, h1, h2, h3⟩ := stamp_filename_split f
    refine ⟨dir, stem, hf, h1, h2, h3, ?_⟩
    simp only [stamp_filename, hdir, hstem, extension]
  · rw [stamp_filename_eq]
    exact ⟨decimal n ++ extension, by simp⟩
  · rw [stamp_filename_eq]
    exact ⟨['/', 'a', '/', 'b', '/', 'c', 'l', 'i', 'p'] ++ ['_'] ++ decimal n, by simp [extension]⟩
  · rw [stamp_filename_eq]
    simp [decimal, Nat.digitChar, extension]

theorem int_wrap_of_range (x : Int) (h : int_range x) : int_wrap x = x := by
  unfold int_range at h
  unfold int_wrap
  omega

theorem int_wrap_range (x : Int) : int_range (int_wrap x) := by
  unfold int_range int_wrap
  omega

theorem int_wrap_add (x y : Int) : int_wrap (int_wrap x + y) = int_wrap (x + y) := by
  unfold int_wrap
  omega

theorem ready_step (period : Int) (s : Recorder) (m : ImageMsg) (ms : List ImageMsg)
    (hr : ready period s (m :: ms)) (hch : List.Chain' (spaced period) (m :: ms))
    (hint : int_range s.g_count) :
    ready period (step period s (Event.image m)) ms ∧
    (step period s (Event.image m)).written = s.written ++ (with_image [m]).map ImageMsg.stamp ∧
    (step period s (Event.image m)).g_count =
      int_wrap (s.g_count + ((with_image [m]).length : Int)) := by
  have hid := int_wrap_of_range s.g_count hint
  obtain ⟨hrec, hex, hsub, hhead⟩ := hr
  obtain ⟨hopen, hle, hper⟩ := hhead m rfl
  have hpass : rate_gate_skips period s m = false := by
    simp only [rate_gate_skips, decide_eq_false_iff_not]
    omega
  have hstep : step period s (Event.image m) = callback period s m := by
    simp [step, dispatch, hex, hsub]
  have hnext : ∀ t : Recorder, t.g_last_wrote_time ≤ m.stamp → t.recording = true →
      t.exited = false → t.subscribed = true → t.opened = true → ready period t ms := by
    intro t ht h1 h2 h3 h4
    refine ⟨h1, h2, h3, ?_⟩
    intro m2 hm2
    cases ms with
    | nil => cases hm2
    | cons x rest =>
      simp only [List.head?_cons, Option.mem_def, Option.some.injEq] at hm2
      subst hm2
      have hsp : spaced period m x := (List.chain'_cons.mp hch).1
      unfold spaced at hsp
      exact ⟨Or.inl h4, by omega, by omega⟩
  rw [hstep, callback_of_pass period s m hrec hopen hpass]
  cases hc : m.conversion with
  | exception =>
    refine ⟨hnext _ ?_ ?_ ?_ ?_ ?_, ?_, ?_⟩ <;> simp [convert_and_write, hc, with_image, *]
  | empty =>
    refine ⟨hnext _ ?_ ?_ ?_ ?_ ?_, ?_, ?_⟩ <;> simp [convert_and_write, hc, with_image, *]
  | image =>
    refine ⟨hnext _ ?_ ?_ ?_ ?_ ?_, ?_, ?_⟩ <;> simp [convert_and_write, hc, with_image, *]

theorem with_image_cons (m : ImageMsg) (ms : List ImageMsg) :
    with_image (m :: ms) = with_image [m] ++ with_image ms := by
  unfold with_image
  rw [← List.filter_append]
  rfl

theorem ready_spin (period : Int) (ms : List ImageMsg) (s : Recorder)
    (hr : ready period s ms) (hch : List.Chain' (spaced period) ms)
    (hint : int_range s.g_count) :
    (spin period s (ms.map Event.image)).written =
      s.written ++ (with_image ms).map ImageMsg.stamp ∧
    (spin period s (ms.map Event.image)).g_count =
      int_wrap (s.g_count + ((with_image ms).length : Int)) ∧
    ∀ pre x post, ms = pre ++ x :: post →
      ready period (spin period s (pre.map Event.image)) (x :: post) := by
  induction ms generalizing s with
  | nil =>
    refine ⟨by simp [spin, with_image],
      by simpa [spin, with_image] using (int_wrap_of_range s.g_count hint).symm, ?_⟩
    intro pre x post h
    simp at h
  | cons m ms ih =>
    obtain ⟨hr1, hw1, hc1⟩ := ready_step period s m ms hr hch hint
    obtain ⟨hw, hc, hsplit⟩ := ih _ hr1 (List.Chain'.tail hch)
      (by rw [hc1]; exact int_wrap_range _)
    rw [List.map_cons, spin_cons, with_image_cons]
    refine ⟨?_, ?_, ?_⟩
    · rw [hw, hw1]; simp
    · rw [hc, hc1, int_wrap_add]
      congr 1
      simp only [List.length_append]
      push_cast
      ring
    · intro pre x post h
      cases pre with
      | nil =>
        simp only [List.nil_append, List.cons.injEq] at h
        obtain ⟨rfl, rfl⟩ := h
        exact hr
      | cons a pre0 =>
        simp only [List.cons_append, List.cons.injEq] at h
        obtain ⟨rfl, h⟩ := h
        rw [List.map_cons, spin_cons]
        exact hsplit pre0 x post h

/-- C2, as the code has it: from a launch that records from the start, for frames stamped
later and later, each at least one rate period after the one before, the first at least
one period after time zero and finding the sink able to open, every frame passes the rate
gate, and the frames written are exactly those whose conversion gives an image. -/
theorem spaced_frames_all_pass (p : Params) (now : Nat) (ms : List ImageMsg)
    (harmed : p.save_all_video = false) (hcodec : p.codec.length = 4)
    (hfirst : ∀ m ∈ ms.head?, m.open_ok = true ∧ p.period ≤ (m.stamp : Int))
    (hspaced : List.Chain' (spaced p.period) ms) :
    (∀ pre x post, ms = pre ++ x :: post →
      (main p now (pre.map Event.image)).exited = false ∧
      (main p now (pre.map Event.image)).recording = true ∧
      rate_gate_skips p.period (main p now (pre.map Event.image)) x = false) ∧
    (main p now (ms.map Event.image)).written = (with_image ms).map ImageMsg.stamp ∧
    (main p now (ms.map Event.image)).g_count = int_wrap ((with_image ms).length : Int) := by
  have hinit : (main_init p now).recording = true ∧ (main_init p now).exited = false ∧
      (main_init p now).subscribed = true ∧ (main_init p now).opened = false ∧
      (main_init p now).g_last_wrote_time = 0 ∧ (main_init p now).written = [] ∧
      (main_init p now).g_count = 0 := by
    simp [main_init, main_services, main_filename, initial, hcodec, harmed]
  obtain ⟨h1, h2, h3, h4, h5, h6, h7⟩ := hinit
  have hr : ready p.period (main_init p now) ms := by
    refine ⟨h1, h2, h3, ?_⟩
    intro m hm
    obtain ⟨ho, hp⟩ := hfirst m hm
    rw [h5]
    exact ⟨Or.inr ho, Nat.zero_le _, by simpa using hp⟩
  obtain ⟨hw, hc, hsplit⟩ := ready_spin p.period ms (main_init p now) hr hspaced
    (by rw [h7]; decide)
  refine ⟨?_, ?_, ?_⟩
  · intro pre x post h
    obtain ⟨r1, r2, _, r4⟩ := hsplit pre x post h
    obtain ⟨_, _, hper⟩ := r4 x rfl
    refine ⟨r2, r1, ?_⟩
    simp only [rate_gate_skips, decide_eq_false_iff_not, main]
    omega
  · unfold main; rw [hw, h6]; simp
  · unfold main; rw [hc, h7]; simp

theorem spaced_frames_all_pass_witness :
    (∀ pre x post,
      [good_frame 100000000, bad_frame 200000000, good_frame 350000000] = pre ++ x :: post →
      (main armed_params 0 (pre.map Event.image)).exited = false ∧
      (main armed_params 0 (pre.map Event.image)).recording = true ∧
      rate_gate_skips armed_params.period (main armed_params 0 (pre.map Event.image)) x
        = false) ∧
    (main armed_params 0 ([good_frame 100000000, bad_frame 200000000,
        good_frame 350000000].map Event.image)).written =
      (with_image [good_frame 100000000, bad_frame 200000000,
        good_frame 350000000]).map ImageMsg.stamp ∧
    (main armed_params 0 ([good_frame 100000000, bad_frame 200000000,
        good_frame 350000000].map Event.image)).g_count =
      int_wrap ((with_image [good_frame 100000000, bad_frame 200000000,
        good_frame 350000000]).length : Int) :=
  spaced_frames_all_pass armed_params 0
    [good_frame 100000000, bad_frame 200000000, good_frame 350000000]
    rfl rfl (by decide)
    (List.chain'_cons.mpr ⟨by decide, List.chain'_cons.mpr ⟨by decide, List.chain'_singleton _⟩⟩)

/-- C2 as stated fails: with `fps = 10`, from launch, the frames stamped 0.05 s and 0.15 s
are stamped later and later and one period apart, yet the first is skipped by the rate
gate, and only the second is written; and a frame for which the sink cannot be opened makes
the process exit before the rate gate, with nothing written. -/
theorem spaced_frame_can_be_skipped :
    spaced period_fps10 (good_frame 50000000) (good_frame 150000000) ∧
    (main_init armed_params 0).recording = true ∧
    rate_gate_skips period_fps10 (main_init armed_params 0) (good_frame 50000000) = true ∧
    (main armed_params 0 [Event.image (good_frame 50000000)]).written = [] ∧
    (main armed_params 0
      [Event.image (good_frame 50000000), Event.image (good_frame 150000000)]).written
      = [150000000] ∧
    (main armed_params 0 [Event.image (unopened_frame 2000000000)]).exited = true ∧
    (main armed_params 0 [Event.image (unopened_frame 2000000000)]).written = [] := by
  decide

theorem callback_flags (period : Int) (s : Recorder) (m : ImageMsg) :
    (callback period s m).opened = (s.opened || (s.recording && m.open_ok)) ∧
    (callback period s m).exited = (s.exited || (s.recording && !s.opened && !m.open_ok)) ∧
    (callback period s m).recording = s.recording := by
  cases s with
  | mk recording opened g_count g_last filename filename_orig written opens exited sub srv =>
    cases recording <;> cases opened <;> cases hk : m.open_ok <;>
      simp [callback, hk, gate_and_write_flags]

theorem sink_open_iff_delivered_step (period : Int) (s : Recorder) (h : History) (e : Event)
    (hinv : sink_open_iff_delivered s h) :
    sink_open_iff_delivered (step period s e) (observe period s h e) := by
  obtain ⟨h1, h2, h3⟩ := hinv
  cases hex : s.exited with
  | true =>
    have hh : handled s e = false := by cases e <;> simp [handled, hex]
    rw [step_exited period s e hex]
    simp only [observe, hh, Bool.false_eq_true, if_false]
    exact ⟨h1, h2, h3⟩
  | false =>
    have h1a := h1 hex
    cases e with
    | image m =>
      cases hsub : s.subscribed with
      | false =>
        simp only [step, hex, dispatch, hsub, observe, handled, Bool.not_false, Bool.and_false,
          Bool.false_eq_true, if_false]
        exact ⟨h1, h2, h3⟩
      | true =>
        obtain ⟨c1, c2, c3⟩ := callback_flags period s m
        simp only [step, hex, dispatch, hsub, observe, handled, Bool.not_false, Bool.and_true,
          Bool.false_eq_true, if_false, if_true]
        unfold sink_open_iff_delivered
        rw [c1, c2, c3, hex]
        cases hr : s.recording <;> cases ho : s.opened <;> cases hk : m.open_ok <;>
          simp_all
    | start now =>
      cases hsrv : s.services <;>
        simp_all [step, dispatch, observe, handled, sink_open_iff_delivered, start_cb]
    | start_named str now =>
      cases hsrv : s.services <;>
        simp_all [step, dispatch, observe, handled, sink_open_iff_delivered, start_string_cb]
    | stop =>
      cases hsrv : s.services <;>
        simp_all [step, dispatch, observe, handled, sink_open_iff_delivered, stop_cb]

theorem sink_open_iff_delivered_spin (period : Int) (es : List Event) (s : Recorder)
    (h : History) (hinv : sink_open_iff_delivered s h) :
    sink_open_iff_delivered (spin period s es) (history period s h es) := by
  induction es generalizing s h with
  | nil => exact hinv
  | cons e es ih =>
    rw [spin_cons]
    exact ih _ _ (sink_open_iff_delivered_step period s h e hinv)

/-- C6, as the code has it: in every state reached from launch and not exited, the sink
is open exactly when the callback has run with `recording` set, whether or not the rate
gate let the frame pass, since the last stop (or since launch); an open sink implies
`recording`, and a process that has exited has no open sink. -/
theorem sink_open_iff_frame_delivered (p : Params) (now : Nat) (es : List Event) :
    ((main p now es).exited = false →
      ((main p now es).opened = true ↔ (main_history p now es).delivered_since_stop = true)) ∧
    ((main p now es).exited = true → (main p now es).opened = false) ∧
    ((main p now es).opened = true → (main p now es).recording = true) := by
  have h0 : sink_open_iff_delivered (main_init p now) History.launch := by
    have hcl := main_init_closed p now
    unfold sink_open_iff_delivered
    simp [hcl, History.launch]
  exact sink_open_iff_delivered_spin p.period es (main_init p now) History.launch h0

/-- C6 as stated fails, in two ways. After start, a written frame at 2.0 s, stop, start and
a frame at 2.05 s, the sink is open although no frame has passed the rate gate since the
last start. After start, a written frame and a second start, the sink is still open
although no frame has arrived since the last start. -/
theorem sink_open_without_admitted_frame :
    (main commanded_params 0
      [Event.start 1, Event.image (good_frame 2000000000), Event.stop, Event.start 3,
       Event.image (good_frame 2050000000)]).opened = true ∧
    (main commanded_params 0
      [Event.start 1, Event.image (good_frame 2000000000), Event.stop, Event.start 3,
       Event.image (good_frame 2050000000)]).written = [2000000000] ∧
    (main_history commanded_params 0
      [Event.start 1, Event.image (good_frame 2000000000), Event.stop, Event.start 3,
       Event.image (good_frame 2050000000)]).admitted_since_start = false ∧
    ¬ sink_open_iff_admitted
      (main commanded_params 0
        [Event.start 1, Event.image (good_frame 2000000000), Event.stop, Event.start 3,
         Event.image (good_frame 2050000000)])
      (main_history commanded_params 0
        [Event.start 1, Event.image (good_frame 2000000000), Event.stop, Event.start 3,
         Event.image (good_frame 2050000000)]) ∧
    (main commanded_params 0
      [Event.start 1, Event.image (good_frame 2000000000), Event.start 3]).opened = true ∧
    (main_history commanded_params 0
      [Event.start 1, Event.image (good_frame 2000000000),
       Event.start 3]).admitted_since_start = false ∧
    ¬ sink_open_iff_admitted
      (main commanded_params 0
        [Event.start 1, Event.image (good_frame 2000000000), Event.start 3])
      (main_history commanded_params 0
        [Event.start 1, Event.image (good_frame 2000000000), Event.start 3]) := by
  unfold sink_open_iff_admitted
  decide

end VideoRecorder
